import Mathlib

/-!
Verification of the vnpy market-data core (`vnpy/trader`): the unified
history router `query_history_uni` with its cutover resolution
(`history_uni_get.py`), the overview memoization `_auto_cache`, the
unconfigured-datafeed fallback (`datafeed.py`), and the dividend-factor
tools (`_dividend_tool.py`).

Shallow embedding conventions:
* `datetime` values are modelled as `Int` microseconds (the Python
  `timedelta.resolution` is one microsecond), `timedelta` likewise as `Int`.
* Python dynamic typing matters for the `_auto_cache` call site, where the
  three arguments are passed in a different order than the parameters are
  declared; arguments at that boundary are therefore modelled by the dynamic
  value type `PyVal`.
* Raising code is modelled with `Except String`; a `.error` is a raised
  exception (the string carries the message).
* The store and feed collaborators are abstract functions supplied as
  parameters; the result of a router call records which sub-queries were issued
  (`RouterCall.storeQ` / `RouterCall.feedQ`) together with the concatenated
  record list, so theorems can speak about what was queried.
-/

namespace Vnpy

/-- Smallest representable time increment: `timedelta.resolution`
(one microsecond in our `Int` microsecond scale). -/
def resolution : Int := 1

/-- `timedelta(days=1)` in microseconds. -/
def oneDay : Int := 86400000000

/-- A few exchange values (`vnpy.trader.constant.Exchange`); only identity
matters to the verified code. -/
inductive Exchange where
  | SHFE
  | SSE
  | SZSE
  | CFFEX
deriving DecidableEq, Repr

/-- The union `Interval | ExtraInterval` of recognized request kinds:
tick, the five bar granularities, dividend events and trade dates. -/
inductive IntervalU where
  | tick
  | minute
  | minute5
  | hour
  | daily
  | weekly
  | dividend
  | tradeDate
deriving DecidableEq, Repr

/-- Adjustment mode enumeration (`vnpy.trader.constant.Dividend`):
none / forward / backward; an opaque pass-through value for the router. -/
inductive DividendMode where
  | NONE
  | FRONT
  | BACK
deriving DecidableEq, Repr

/-- A dynamically typed Python value at the `_auto_cache` /
`query_overview_uni` boundary: a symbol string, an exchange, or an
interval.  Needed because the source calls
`_auto_cache(req.interval, req.symbol, req.exchange)` against the
declared parameter order `(symbol, exchange, interval)`. -/
inductive PyVal where
  | str (s : String)
  | exch (e : Exchange)
  | interv (i : IntervalU)
deriving DecidableEq, Repr

/-- An incoming `HistoryRequest` (`vnpy.trader.object.HistoryRequest`) with a
concrete range; `stop` models the Python field `end` (a Lean keyword). -/
structure HistoryRequest where
  symbol : String
  exchange : Exchange
  start : Int
  stop : Int
  interval : IntervalU
  dividend : DividendMode
deriving DecidableEq, Repr

/-- A sub-query `HistoryRequest` constructed by the router at lines 88-92 and
99-103 of `history_uni_get.py`.  Its `start`/`stop` are `Option Int` because
the buggy `RelativeOffset` degradations pass Python `None` where a datetime
is expected. -/
structure SubQuery where
  symbol : String
  exchange : Exchange
  start : Option Int
  stop : Option Int
  interval : IntervalU
  dividend : DividendMode
deriving DecidableEq, Repr

/-- An overview record (`BarOverview` and friends): `stop` models the
Python field `end`. -/
structure Overview where
  count : Nat
  start : Int
  stop : Int
deriving DecidableEq, Repr

/-- The store collaborator: `query_history_uni` for record retrieval plus
the four overview getters dispatched by `query_overview_uni`.  `α` is the
opaque record payload type.  The overview getters take `PyVal` arguments
because Python does not enforce the annotations at the scrambled call
site. -/
structure Database (α : Type) where
  query : SubQuery → List α
  get_tick_overview : PyVal → PyVal → List Overview
  get_bar_overview : PyVal → PyVal → IntervalU → List Overview
  get_dividend_overview : PyVal → PyVal → List Overview
  get_trade_date_overview : PyVal → List Overview

/-- `BaseDatabase.query_overview_uni(symbol, exchange, interval)`
(`database.py` lines 353-363): dispatch on `interval`; a value that is not a
recognized interval raises `AssertionError`. -/
def query_overview_uni {α : Type} (db : Database α)
    (symbol exchange interval : PyVal) : Except String (List Overview) :=
  match interval with
  | .interv .tick => .ok (db.get_tick_overview symbol exchange)
  | .interv .minute => .ok (db.get_bar_overview symbol exchange .minute)
  | .interv .minute5 => .ok (db.get_bar_overview symbol exchange .minute5)
  | .interv .hour => .ok (db.get_bar_overview symbol exchange .hour)
  | .interv .daily => .ok (db.get_bar_overview symbol exchange .daily)
  | .interv .weekly => .ok (db.get_bar_overview symbol exchange .weekly)
  | .interv .dividend => .ok (db.get_dividend_overview symbol exchange)
  | .interv .tradeDate => .ok (db.get_trade_date_overview exchange)
  | _ => .error "AssertionError: query_overview_uni unsupported interval"

/-- Body of `_auto_cache` (`history_uni_get.py` lines 10-19), without the
`lru_cache` wrapper: query the overview; zero records yield `none`
(no coverage), exactly one record yields its `end` minus one day, more
records fail the `assert len(ows) == 1`. -/
def auto_cache {α : Type} (db : Database α)
    (symbol exchange interval : PyVal) : Except String (Option Int) :=
  match query_overview_uni db symbol exchange interval with
  | .error e => .error e
  | .ok ows =>
    match ows with
    | [] => .ok none
    | [ow] => .ok (some (ow.stop - oneDay))
    | _ => .error "AssertionError: len(ows) == 1"

/-- The `cut` argument of `query_history_uni`: a datetime, a timedelta, one
of the literals `database` / `datafeed` / `auto`, or the declared default
`None` (modelled as `pynone`). -/
inductive Cut where
  | dtime (t : Int)
  | tdelta (d : Int)
  | database
  | datafeed
  | auto
  | pynone
deriving DecidableEq, Repr

/-- Lines 43-50 of `history_uni_get.py`: under `cut == "auto"`, rebind `cut`
from `_auto_cache(req.interval, req.symbol, req.exchange)` — note the
argument order of the source call, which feeds `req.interval` into the
`symbol` slot, `req.symbol` into `exchange` and `req.exchange` into
`interval`.  `None` coverage degrades to `"datafeed"`. -/
def resolve_cut {α : Type} (db : Database α) (req : HistoryRequest)
    (cut : Cut) : Except String Cut :=
  match cut with
  | .auto =>
    match auto_cache db (.interv req.interval) (.str req.symbol) (.exch req.exchange) with
    | .error e => .error e
    | .ok none => .ok .datafeed
    | .ok (some t) => .ok (.dtime t)
  | c => .ok c

/-- Lines 52-84 of `history_uni_get.py`: compute the triple
`(start_dt, mid_dt, end_dt)` from the (already auto-resolved) `cut`.
The `tdelta` degradations reproduce the assignment order of the source
(`start_dt = None; mid_dt = start_dt` and `end_dt = None; mid_dt = end_dt`),
which leaves `mid_dt = None`. -/
def resolve_split (req : HistoryRequest) (cut : Cut) :
    Except String (Option Int × Option Int × Option Int) :=
  match cut with
  | .database => .ok (some req.start, some req.stop, none)
  | .datafeed => .ok (none, some req.start, some req.stop)
  | .tdelta d =>
    if req.stop - d ≤ req.start then
      .ok (none, none, some req.stop)
    else if req.stop - d ≥ req.stop then
      .ok (some req.start, none, none)
    else
      .ok (some req.start, some (req.stop - d), some req.stop)
  | .dtime t =>
    if req.start ≤ t ∧ t ≤ req.stop then
      if t = req.start then
        .ok (none, some t, some req.stop)
      else if t = req.stop then
        .ok (some req.start, some t, none)
      else
        .ok (some req.start, some t, some req.stop)
    else
      .error "AssertionError: mid_dt must lie between start_dt and end_dt"
  | _ => .error "AssertionError: unsupported cut type"

/-- The result of one router call: which store sub-query was issued, which
feed sub-query was issued, and the concatenated record list returned. -/
structure RouterCall (α : Type) where
  storeQ : Option SubQuery
  feedQ : Option SubQuery
  out : List α
deriving DecidableEq, Repr

/-- Lines 86-106 of `history_uni_get.py`: issue the store sub-query when
`start_dt` is present (range `[start_dt, mid_dt]`) and the feed sub-query
when `end_dt` is present, nudging the feed lower bound by
`timedelta.resolution` exactly when a store sub-query was issued; adding the
resolution to a `None` `mid_dt` would be a Python `TypeError`. -/
def issue_queries {α : Type} (db : Database α) (df : SubQuery → List α)
    (req : HistoryRequest) (split : Option Int × Option Int × Option Int) :
    Except String (RouterCall α) :=
  let start_dt := split.1
  let mid_dt := split.2.1
  let end_dt := split.2.2
  let storeQ : Option SubQuery :=
    match start_dt with
    | none => none
    | some _ => some ⟨req.symbol, req.exchange, start_dt, mid_dt, req.interval, req.dividend⟩
  let out1 : List α :=
    match storeQ with
    | none => []
    | some q => db.query q
  match end_dt with
  | none => .ok ⟨storeQ, none, out1⟩
  | some _ =>
    match start_dt, mid_dt with
    | none, _ =>
      let fq : SubQuery := ⟨req.symbol, req.exchange, mid_dt, end_dt, req.interval, req.dividend⟩
      .ok ⟨storeQ, some fq, out1 ++ df fq⟩
    | some _, some m =>
      let fq : SubQuery :=
        ⟨req.symbol, req.exchange, some (m + resolution), end_dt, req.interval, req.dividend⟩
      .ok ⟨storeQ, some fq, out1 ++ df fq⟩
    | some _, none =>
      .error "TypeError: unsupported operand types NoneType and timedelta"

/-- `query_history_uni` (`history_uni_get.py` lines 22-106): resolve the
auto cut, compute the split triple and issue the sub-queries. -/
def query_history_uni {α : Type} (db : Database α) (df : SubQuery → List α)
    (req : HistoryRequest) (cut : Cut) : Except String (RouterCall α) :=
  match resolve_cut db req cut with
  | .error e => .error e
  | .ok c =>
    match resolve_split req c with
    | .error e => .error e
    | .ok split => issue_queries db df req split

/-! ### The unconfigured datafeed (`datafeed.py`)

`BaseDatafeed` is the object `get_datafeed` falls back to when no datafeed
is configured (name empty or module missing).  Each of its four query
methods prints one diagnostic through `output` and returns the empty list;
`query_history_uni` dispatches on the request interval.  A method result is
modelled as the returned record list paired with the list of diagnostic
messages passed to `output`. -/

/-- `BaseDatafeed.query_tick_history` of the unconfigured fallback. -/
def base_query_tick_history (α : Type) (_q : SubQuery) : List α × List String :=
  ([], ["query tick history failed: datafeed not configured"])

/-- `BaseDatafeed.query_bar_history` of the unconfigured fallback. -/
def base_query_bar_history (α : Type) (_q : SubQuery) : List α × List String :=
  ([], ["query bar history failed: datafeed not configured"])

/-- `BaseDatafeed.query_dividend_history` of the unconfigured fallback. -/
def base_query_dividend_history (α : Type) (_q : SubQuery) : List α × List String :=
  ([], ["query dividend history failed: datafeed not configured"])

/-- `BaseDatafeed.query_tradedate_history` of the unconfigured fallback. -/
def base_query_tradedate_history (α : Type) (_q : SubQuery) : List α × List String :=
  ([], ["query tradedate history failed: datafeed not configured"])

/-- `BaseDatafeed.query_history_uni` (`datafeed.py` lines 50-60): dispatch
over the four request kinds; every recognized interval lands in one of the
four methods, and only an unrecognized value would raise. -/
def base_query_history_uni (α : Type) (q : SubQuery) :
    Except String (List α × List String) :=
  match q.interval with
  | .tick => .ok (base_query_tick_history α q)
  | .minute => .ok (base_query_bar_history α q)
  | .minute5 => .ok (base_query_bar_history α q)
  | .hour => .ok (base_query_bar_history α q)
  | .daily => .ok (base_query_bar_history α q)
  | .weekly => .ok (base_query_bar_history α q)
  | .dividend => .ok (base_query_dividend_history α q)
  | .tradeDate => .ok (base_query_tradedate_history α q)

/-- The record-list view of the unconfigured feed, as the router consumes it
(the `.error` arm is unreachable: every `IntervalU` is dispatched). -/
def base_feed (α : Type) (q : SubQuery) : List α :=
  match base_query_history_uni α q with
  | .ok p => p.1
  | .error _ => []

/-! ### The overview memoization (`_auto_cache` under `lru_cache`)

`@lru_cache(None, typed=True)` gives `_auto_cache` an unbounded, per-process
memo table keyed on the argument triple; a raising call stores nothing.  The
table is modelled as an association list from key triples to computed
results, and one memoized invocation is a state-passing step whose third
component records whether the body ran (i.e. whether the store was
consulted). -/

/-- A memo key: the `(symbol, exchange, interval)` argument triple, each a
dynamically typed value. -/
abbrev AutoKey := PyVal × PyVal × PyVal

/-- Look a key up in the memo table. -/
def cacheLookup (c : List (AutoKey × Option Int)) (k : AutoKey) :
    Option (Option Int) :=
  (c.find? (fun e => decide (e.1 = k))).map (fun e => e.2)

/-- One invocation of the `lru_cache`-wrapped `_auto_cache`: a hit returns
the memoized value without running the body; a miss runs the body and, when
it returns normally, stores the value; a raising body stores nothing.  The
`Bool` is true exactly when the body ran (the store was queried). -/
def auto_cache_memo {α : Type} (db : Database α)
    (c : List (AutoKey × Option Int)) (k : AutoKey) :
    Except String (Option Int) × List (AutoKey × Option Int) × Bool :=
  match cacheLookup c k with
  | some v => (.ok v, c, false)
  | none =>
    match auto_cache db k.1 k.2.1 k.2.2 with
    | .ok v => (.ok v, (k, v) :: c, true)
    | .error e => (.error e, c, true)

/-! ### The dividend tools (`_dividend_tool.py`)

Factor values are modelled in `ℚ`; the mapper only selects values (no
arithmetic), and the products and quotients of the compiler follow the real
(ideal) arithmetic of the spec. -/

/-- Running product with accumulator: `np.cumprod` unrolled. -/
def cumprod_from (acc : ℚ) : List ℚ → List ℚ
  | [] => []
  | x :: xs => (acc * x) :: cumprod_from (acc * x) xs

/-- `np.cumprod dr`: element `i` is the product of `dr[0..i]`. -/
def cumprod (dr : List ℚ) : List ℚ :=
  cumprod_from 1 dr

/-- `make_front_back_dr` (`_dividend_tool.py` lines 8-22): empty input gives
two empty arrays; otherwise `back_dr = np.cumprod(dr)` and
`front_dr = back_dr / back_dr[-1]` (`getLastD 0` reads `back_dr[-1]`; the
default is never used since `back_dr` is nonempty in that branch). -/
def make_front_back_dr (dr : List ℚ) : List ℚ × List ℚ :=
  if dr.length = 0 then
    ([], [])
  else
    let back_dr := cumprod dr
    let front_dr := back_dr.map (fun x => x / back_dr.getLastD 0)
    (front_dr, back_dr)

/-- Inner loop of `_get_back_dr_list_ori` (`_dividend_tool.py` lines 41-47)
for one target timestamp `t`: walk the `(dr_timestamp, dr_back_dr)` pairs in
order, keeping the factor of each event with timestamp at most `t` and
breaking at the first later event. -/
def scan_dr (t : Int) : List (Int × ℚ) → ℚ → ℚ
  | [], dr => dr
  | (t2, b) :: rest, dr => if t2 ≤ t then scan_dr t rest b else dr

/-- `_get_back_dr_list_ori` (`_dividend_tool.py` lines 25-49): one
independent scan per target timestamp, starting from the neutral factor 1. -/
def get_back_dr_list (timetags dr_timestamp : List Int)
    (dr_back_dr : List ℚ) : List ℚ :=
  timetags.map (fun t => scan_dr t (dr_timestamp.zip dr_back_dr) 1)

/-- `make_timetags_back_dr` (`_dividend_tool.py` lines 55-74): run the scan
only when the event table is nonempty; otherwise fill the output with 1
without touching the event arrays. -/
def make_timetags_back_dr (timetags dr_timestamp : List Int)
    (back_dr : List ℚ) : List ℚ :=
  if 0 < dr_timestamp.length then
    get_back_dr_list timetags dr_timestamp back_dr
  else
    List.replicate timetags.length 1

/-- Specification-side definition of the per-element mapping rule, for
comparison with the scan of the source: the factor for timestamp `t` is
the back-factor of the latest event whose timestamp is at most `t`, and 1
when no such event exists. -/
def latest_event_factor (t : Int) (events : List (Int × ℚ)) : ℚ :=
  match (events.filter (fun p => decide (p.1 ≤ t))).getLast? with
  | some p => p.2
  | none => 1

/-- The factor of the last event in a list, with an explicit default. -/
def lastFactorD : List (Int × ℚ) → ℚ → ℚ
  | [], dr => dr
  | e :: l, _ => lastFactorD l e.2

/-- The single diagnostic message the unconfigured feed emits for a request
of each kind (read off the four `BaseDatafeed` method bodies). -/
def base_diag (q : SubQuery) : String :=
  match q.interval with
  | .tick => "query tick history failed: datafeed not configured"
  | .minute => "query bar history failed: datafeed not configured"
  | .minute5 => "query bar history failed: datafeed not configured"
  | .hour => "query bar history failed: datafeed not configured"
  | .daily => "query bar history failed: datafeed not configured"
  | .weekly => "query bar history failed: datafeed not configured"
  | .dividend => "query dividend history failed: datafeed not configured"
  | .tradeDate => "query tradedate history failed: datafeed not configured"

/-! ### Concrete collaborators and requests used to evaluate the code -/

/-- A store with no records and empty overviews, over trivial payloads. -/
def dbU : Database Unit :=
  ⟨fun _ => [], fun _ _ => [], fun _ _ _ => [], fun _ _ => [], fun _ => []⟩

/-- A feed returning no records. -/
def dfU : SubQuery → List Unit := fun _ => []

/-- A store whose every range query returns two records. -/
def dbN : Database Nat :=
  ⟨fun _ => [1, 2], fun _ _ => [], fun _ _ _ => [], fun _ _ => [], fun _ => []⟩

/-- A feed whose every range query returns one record. -/
def dfN : SubQuery → List Nat := fun _ => [7]

/-- A store whose bar overview reports one record with coverage end two
days after the epoch. -/
def dbOv : Database Unit :=
  ⟨fun _ => [], fun _ _ => [], fun _ _ _ => [⟨10, 0, 2 * oneDay⟩],
   fun _ _ => [], fun _ => []⟩

/-- A correctly ordered `(symbol, exchange, interval)` memo key. -/
def kOv : AutoKey := (.str "rb888", .exch .SHFE, .interv .daily)

/-- A daily-bar request over the range `[0, 100]`. -/
def reqA : HistoryRequest := ⟨"s", .SSE, 0, 100, .daily, .NONE⟩

/-- A degenerate request whose range is the single point `0`. -/
def req00 : HistoryRequest := ⟨"s", .SSE, 0, 0, .daily, .NONE⟩

/-- The store sub-query the router issues for `reqA` with an explicit
cutover at 40. -/
def sqW : SubQuery := ⟨"s", .SSE, some 0, some 40, .daily, .NONE⟩

/-- The feed sub-query the router issues for `reqA` with an explicit
cutover at 40: its lower bound is nudged by `resolution`. -/
def fqW : SubQuery := ⟨"s", .SSE, some (40 + resolution), some 100, .daily, .NONE⟩

/-! ## Claims about the router -/

/-- Claim C10: calling the router with the declared default `cut = None`
always raises the unsupported-cut error, for every request and any
collaborators (so none is queried). -/
theorem default_cut_raises {α : Type} (db : Database α) (df : SubQuery → List α)
    (req : HistoryRequest) :
    query_history_uni db df req Cut.pynone =
      .error "AssertionError: unsupported cut type" := rfl

/-- Claim C2 (divergence witnessed): under `cut = "auto"` the router raises
for every request and every store, because `_auto_cache` is invoked with its
arguments in the order `(interval, symbol, exchange)` against the declared
parameter order `(symbol, exchange, interval)`, which makes
`query_overview_uni` dispatch on an `Exchange` value; it never degrades to
feed-only. -/
theorem auto_cut_always_raises {α : Type} (db : Database α) (df : SubQuery → List α)
    (req : HistoryRequest) :
    query_history_uni db df req Cut.auto =
      .error "AssertionError: query_overview_uni unsupported interval" := rfl

/-- Claim C1 (divergence witnessed): on the range `[0, 100]`, a `timedelta`
cut of 200 degrades to a feed-only call whose feed sub-query has start
`None` rather than the range start, and a cut of -100 degrades to a
store-only call whose store sub-query has end `None` rather than the range
end, because both degradations set `mid_dt` to `None` before using it. -/
theorem relative_offset_degrade_eval :
    query_history_uni dbU dfU reqA (Cut.tdelta 200) =
      .ok ⟨none, some ⟨"s", Exchange.SSE, none, some 100, IntervalU.daily, DividendMode.NONE⟩, []⟩ ∧
    query_history_uni dbU dfU reqA (Cut.tdelta (-100)) =
      .ok ⟨some ⟨"s", Exchange.SSE, some 0, none, IntervalU.daily, DividendMode.NONE⟩, none, []⟩ :=
  ⟨rfl, rfl⟩

/-- Claim C4 (counterexample): on the degenerate range `[0, 0]` with
`ExplicitTimestamp(0)`, `mid` equals the range end yet the feed sub-query
is present (on the full range) and the store sub-query is absent, because
the `mid == start` arm takes priority in the `elif` chain. -/
theorem explicit_cut_degenerate_cex :
    req00.start = 0 ∧ req00.stop = 0 ∧
    query_history_uni dbU dfU req00 (Cut.dtime 0) =
      .ok ⟨none, some ⟨"s", Exchange.SSE, some 0, some 0, IntervalU.daily, DividendMode.NONE⟩, []⟩ :=
  ⟨rfl, rfl, rfl⟩


theorem query_history_uni_ok {α : Type} (db : Database α) (df : SubQuery → List α)
    (req : HistoryRequest) (cut : Cut) (r : RouterCall α)
    (h : query_history_uni db df req cut = .ok r) :
    ∃ c split, resolve_cut db req cut = .ok c ∧ resolve_split req c = .ok split ∧
      issue_queries db df req split = .ok r := by
  unfold query_history_uni at h
  split at h
  · exact absurd h (by simp)
  · rename_i c hc
    split at h
    · exact absurd h (by simp)
    · rename_i split hs
      exact ⟨c, split, hc, hs, h⟩

theorem issue_queries_out {α : Type} (db : Database α) (df : SubQuery → List α)
    (req : HistoryRequest) (split : Option Int × Option Int × Option Int)
    (r : RouterCall α) (h : issue_queries db df req split = .ok r) :
    r.out = (match r.storeQ with | some q => db.query q | none => [])
         ++ (match r.feedQ with | some q => df q | none => []) := by
  obtain ⟨sd, md, ed⟩ := split
  cases sd <;> cases ed <;> cases md <;> simp [issue_queries] at h <;> subst h <;> simp

theorem issue_queries_boundary {α : Type} (db : Database α) (df : SubQuery → List α)
    (req : HistoryRequest) (split : Option Int × Option Int × Option Int)
    (r : RouterCall α) (sq fq : SubQuery)
    (h : issue_queries db df req split = .ok r)
    (hs : r.storeQ = some sq) (hf : r.feedQ = some fq) :
    sq.stop ≠ none ∧ fq.start = Option.map (fun m => m + resolution) sq.stop := by
  obtain ⟨sd, md, ed⟩ := split
  cases sd <;> cases ed <;> cases md <;> simp [issue_queries] at h <;> subst h <;>
    cases hs <;> cases hf <;> simp


/-- Claim C5: whenever both sub-queries are issued in one call, the feed
sub-query starts at `mid` plus the smallest representable increment while
the store sub-query ends exactly at `mid`, so the intervals are disjoint. -/
theorem cutover_boundary_disjoint {α : Type} (db : Database α) (df : SubQuery → List α)
    (req : HistoryRequest) (cut : Cut) (r : RouterCall α) (sq fq : SubQuery)
    (h : query_history_uni db df req cut = .ok r)
    (hs : r.storeQ = some sq) (hf : r.feedQ = some fq) :
    sq.stop ≠ none ∧ fq.start = Option.map (fun m => m + resolution) sq.stop ∧
      0 < resolution := by
  obtain ⟨c, split, -, -, hi⟩ := query_history_uni_ok db df req cut r h
  obtain ⟨h1, h2⟩ := issue_queries_boundary db df req split r sq fq hi hs hf
  exact ⟨h1, h2, by decide⟩

theorem cutover_boundary_disjoint_witness :
    sqW.stop ≠ none ∧ fqW.start = Option.map (fun m => m + resolution) sqW.stop ∧
      0 < resolution :=
  cutover_boundary_disjoint dbU dfU reqA (Cut.dtime 40) ⟨some sqW, some fqW, []⟩
    sqW fqW rfl rfl rfl

/-- Claim C7: the returned list is exactly the store result followed by the
feed result, so its length is the sum of the two partial counts. -/
theorem router_concat_spec {α : Type} (db : Database α) (df : SubQuery → List α)
    (req : HistoryRequest) (cut : Cut) (r : RouterCall α)
    (h : query_history_uni db df req cut = .ok r) :
    r.out = (match r.storeQ with | some q => db.query q | none => [])
         ++ (match r.feedQ with | some q => df q | none => []) ∧
    r.out.length = (match r.storeQ with | some q => db.query q | none => []).length
                 + (match r.feedQ with | some q => df q | none => []).length := by
  obtain ⟨c, split, -, -, hi⟩ := query_history_uni_ok db df req cut r h
  have hout := issue_queries_out db df req split r hi
  exact ⟨hout, by rw [hout, List.length_append]⟩

theorem router_concat_spec_witness :
    ([1, 2, 7] : List Nat) = dbN.query sqW ++ dfN fqW ∧
    ([1, 2, 7] : List Nat).length = (dbN.query sqW).length + (dfN fqW).length :=
  router_concat_spec dbN dfN reqA (Cut.dtime 40) ⟨some sqW, some fqW, [1, 2, 7]⟩ rfl

/-- Claim C9: every sub-query against the unconfigured feed returns an empty
list plus one nonempty diagnostic instead of raising, and a unified query
using that feed still returns the records of the store sub-range. -/
theorem unconfigured_feed_spec {α : Type} (db : Database α) (req : HistoryRequest)
    (cut : Cut) (r : RouterCall α) (q : SubQuery)
    (h : query_history_uni db (base_feed α) req cut = .ok r) :
    base_query_history_uni α q = .ok ([], [base_diag q]) ∧ base_diag q ≠ "" ∧
    r.out = (match r.storeQ with | some q2 => db.query q2 | none => []) := by
  refine ⟨?_, ?_, ?_⟩
  · cases hq : q.interval <;>
      simp [base_query_history_uni, base_diag, hq, base_query_tick_history,
        base_query_bar_history, base_query_dividend_history,
        base_query_tradedate_history]
  · cases hq : q.interval <;> simp [base_diag, hq]
  · obtain ⟨c, split, -, -, hi⟩ := query_history_uni_ok db (base_feed α) req cut r h
    have hout := issue_queries_out db (base_feed α) req split r hi
    have hfe : ∀ q2 : SubQuery, base_feed α q2 = [] := by
      intro q2
      cases hq2 : q2.interval <;>
        simp [base_feed, base_query_history_uni, hq2, base_query_tick_history,
          base_query_bar_history, base_query_dividend_history,
          base_query_tradedate_history]
    rw [hout]
    cases r.feedQ <;> simp [hfe]

theorem unconfigured_feed_spec_witness :
    base_query_history_uni Unit sqW = .ok ([], [base_diag sqW]) ∧
    base_diag sqW ≠ "" ∧ ([] : List Unit) = dbU.query sqW :=
  unconfigured_feed_spec dbU reqA (Cut.dtime 40) ⟨some sqW, some fqW, []⟩ sqW rfl


/-- Claim C4 (amended): with `ExplicitTimestamp(mid)` on a range
`start ≤ end`, an out-of-range `mid` raises; `mid = start` gives store
absent and feed on the full range; `mid = end` (when distinct from `start`)
gives feed absent and store on the full range; an interior `mid` gives
store `[start, mid]` and feed `[mid + resolution, end]`. -/
theorem explicit_cut_split_spec {α : Type} (db : Database α) (df : SubQuery → List α)
    (req : HistoryRequest) (t : Int) (hr : req.start ≤ req.stop) :
    (¬ (req.start ≤ t ∧ t ≤ req.stop) →
      query_history_uni db df req (.dtime t) =
        .error "AssertionError: mid_dt must lie between start_dt and end_dt") ∧
    (t = req.start →
      query_history_uni db df req (.dtime t) =
        .ok ⟨none,
             some ⟨req.symbol, req.exchange, some req.start, some req.stop,
                   req.interval, req.dividend⟩,
             df ⟨req.symbol, req.exchange, some req.start, some req.stop,
                 req.interval, req.dividend⟩⟩) ∧
    (t = req.stop → t ≠ req.start →
      query_history_uni db df req (.dtime t) =
        .ok ⟨some ⟨req.symbol, req.exchange, some req.start, some req.stop,
                   req.interval, req.dividend⟩,
             none,
             db.query ⟨req.symbol, req.exchange, some req.start, some req.stop,
                       req.interval, req.dividend⟩⟩) ∧
    (req.start < t → t < req.stop →
      query_history_uni db df req (.dtime t) =
        .ok ⟨some ⟨req.symbol, req.exchange, some req.start, some t,
                   req.interval, req.dividend⟩,
             some ⟨req.symbol, req.exchange, some (t + resolution), some req.stop,
                   req.interval, req.dividend⟩,
             db.query ⟨req.symbol, req.exchange, some req.start, some t,
                       req.interval, req.dividend⟩
               ++ df ⟨req.symbol, req.exchange, some (t + resolution), some req.stop,
                      req.interval, req.dividend⟩⟩) := by
  refine ⟨?_, ?_, ?_, ?_⟩
  · intro hnot
    simp [query_history_uni, resolve_cut, resolve_split, hnot]
  · intro ht
    subst ht
    simp [query_history_uni, resolve_cut, resolve_split, le_refl, hr, issue_queries]
  · intro ht hne
    subst ht
    simp [query_history_uni, resolve_cut, resolve_split, le_refl, hr, hne, issue_queries]
  · intro h1 h2
    have hne1 : ¬ t = req.start := ne_of_gt h1
    have hne2 : ¬ t = req.stop := ne_of_lt h2
    simp [query_history_uni, resolve_cut, resolve_split, le_of_lt h1, le_of_lt h2,
      hne1, hne2, issue_queries]

theorem explicit_cut_split_spec_witness :
    query_history_uni dbU dfU reqA (Cut.dtime 40) =
      .ok ⟨some ⟨"s", .SSE, some 0, some 40, .daily, .NONE⟩,
           some ⟨"s", .SSE, some (40 + resolution), some 100, .daily, .NONE⟩, []⟩ :=
  (explicit_cut_split_spec dbU dfU reqA 40 (by decide)).2.2.2 (by decide) (by decide)


/-! ## The adjustment-factor compiler -/

theorem cumprod_from_length (l : List ℚ) : ∀ acc : ℚ,
    (cumprod_from acc l).length = l.length := by
  induction l with
  | nil => intro acc; rfl
  | cons x xs ih => intro acc; simp [cumprod_from, ih]

theorem cumprod_from_getD (l : List ℚ) : ∀ (acc : ℚ) (i : Nat), i < l.length →
    (cumprod_from acc l).getD i 0 = acc * (l.take (i + 1)).prod := by
  induction l with
  | nil => intro acc i h; simp at h
  | cons x xs ih =>
    intro acc i h
    cases i with
    | zero => simp [cumprod_from]
    | succ n =>
      have hn : n < xs.length := by simpa using h
      simp only [cumprod_from, List.getD_cons_succ, List.take_succ_cons,
        List.prod_cons]
      rw [ih (acc * x) n hn, mul_assoc]

theorem cumprod_from_getLastD (l : List ℚ) (hl : l ≠ []) : ∀ acc d : ℚ,
    (cumprod_from acc l).getLastD d = acc * l.prod := by
  induction l with
  | nil => exact absurd rfl hl
  | cons x xs ih =>
    intro acc d
    cases xs with
    | nil => simp [cumprod_from]
    | cons y ys =>
      rw [show cumprod_from acc (x :: y :: ys) =
            (acc * x) :: cumprod_from (acc * x) (y :: ys) from rfl,
        List.getLastD_cons, ih (by simp) (acc * x) (acc * x)]
      simp [mul_assoc]

theorem getD_map_of_lt {β γ : Type} (f : β → γ) (d : β) (d2 : γ) :
    ∀ (l : List β) (i : Nat), i < l.length →
      (l.map f).getD i d2 = f (l.getD i d) := by
  intro l
  induction l with
  | nil => intro i h; simp at h
  | cons x xs ih =>
    intro i h
    cases i with
    | zero => rfl
    | succ n => exact ih n (by simpa using h)


/-- Claim C6: `make_front_back_dr` returns the running product as back
factors, front factors equal to each back factor divided by the last back
factor, a last front factor of exactly 1, and two empty sequences on empty
input. -/
theorem make_front_back_dr_spec (dr : List ℚ) (hpos : ∀ r2 ∈ dr, 0 < r2) :
    (make_front_back_dr dr).2.length = dr.length ∧
    (make_front_back_dr dr).1.length = dr.length ∧
    (∀ i, i < dr.length →
      (make_front_back_dr dr).2.getD i 0 = (dr.take (i + 1)).prod) ∧
    (∀ i, i < dr.length →
      (make_front_back_dr dr).1.getD i 0 =
        (make_front_back_dr dr).2.getD i 0 /
          (make_front_back_dr dr).2.getD (dr.length - 1) 0) ∧
    (dr ≠ [] → (make_front_back_dr dr).1.getD (dr.length - 1) 0 = 1) ∧
    (dr = [] → make_front_back_dr dr = ([], [])) := by
  by_cases hE : dr = []
  · subst hE
    refine ⟨rfl, rfl, ?_, ?_, ?_, fun _ => rfl⟩ <;> simp
  · have hne : dr.length ≠ 0 := by simpa [List.length_eq_zero] using hE
    have hback : (make_front_back_dr dr).2 = cumprod dr := by
      simp [make_front_back_dr, hne]
    have hfront : (make_front_back_dr dr).1 =
        (cumprod dr).map (fun x => x / (cumprod dr).getLastD 0) := by
      simp [make_front_back_dr, hne]
    have hblen : (cumprod dr).length = dr.length := cumprod_from_length dr 1
    have hlast : (cumprod dr).getLastD 0 = dr.prod := by
      simpa [cumprod] using cumprod_from_getLastD dr hE 1 0
    have hprodpos : (0 : ℚ) < dr.prod := List.prod_pos hpos
    have hback_getD : ∀ i, i < dr.length →
        (cumprod dr).getD i 0 = (dr.take (i + 1)).prod := by
      intro i hi
      simpa [cumprod] using cumprod_from_getD dr 1 i hi
    have hlastD : (cumprod dr).getD (dr.length - 1) 0 = dr.prod := by
      rw [hback_getD _ (by omega)]
      rw [show dr.length - 1 + 1 = dr.length by omega, List.take_length]
    refine ⟨?_, ?_, ?_, ?_, ?_, fun hcontra => absurd hcontra hE⟩
    · rw [hback]; exact hblen
    · rw [hfront]; simp [hblen]
    · intro i hi; rw [hback]; exact hback_getD i hi
    · intro i hi
      rw [hfront, hback,
        getD_map_of_lt _ (0 : ℚ) (0 : ℚ) _ i (by rw [hblen]; exact hi),
        hlast, hlastD]
    · intro _
      rw [hfront,
        getD_map_of_lt _ (0 : ℚ) (0 : ℚ) _ (dr.length - 1) (by rw [hblen]; omega),
        hlast, hlastD]
      exact div_self (ne_of_gt hprodpos)

theorem make_front_back_dr_spec_witness :
    (make_front_back_dr [2, 3]).1.getD 1 0 = 1 :=
  (make_front_back_dr_spec [2, 3] (by norm_num)).2.2.2.2.1 (by decide)


/-! ## The timestamp factor mapper -/

theorem lastFactorD_eq_getLast? : ∀ (l : List (Int × ℚ)) (d : ℚ),
    lastFactorD l d = match l.getLast? with | some p => p.2 | none => d
  | [], _ => rfl
  | [_], _ => rfl
  | e :: y :: ys, d => by
    rw [show lastFactorD (e :: y :: ys) d = lastFactorD (y :: ys) e.2 from rfl,
      lastFactorD_eq_getLast? (y :: ys) e.2, List.getLast?_cons_cons,
      List.getLast?_eq_getLast (y :: ys) (by simp)]

theorem latest_event_factor_eq_lastFactorD (t : Int) (evs : List (Int × ℚ)) :
    latest_event_factor t evs =
      lastFactorD (evs.filter (fun p => decide (p.1 ≤ t))) 1 := by
  rw [lastFactorD_eq_getLast?]
  rfl

theorem scan_dr_eq_lastFactorD (t : Int) : ∀ (evs : List (Int × ℚ)) (dr : ℚ),
    List.Pairwise (fun a b : Int × ℚ => a.1 ≤ b.1) evs →
    scan_dr t evs dr = lastFactorD (evs.filter (fun p => decide (p.1 ≤ t))) dr := by
  intro evs
  induction evs with
  | nil => intro dr _; rfl
  | cons e rest ih =>
    intro dr hp
    obtain ⟨t2, b⟩ := e
    rw [List.pairwise_cons] at hp
    by_cases hle : t2 ≤ t
    · rw [show scan_dr t ((t2, b) :: rest) dr = scan_dr t rest b by
        simp [scan_dr, hle]]
      rw [List.filter_cons_of_pos (by simpa using hle)]
      rw [show lastFactorD ((t2, b) :: rest.filter (fun p => decide (p.1 ≤ t))) dr
            = lastFactorD (rest.filter (fun p => decide (p.1 ≤ t))) b from rfl]
      exact ih b hp.2
    · rw [show scan_dr t ((t2, b) :: rest) dr = dr by simp [scan_dr, hle]]
      have hnil : rest.filter (fun p => decide (p.1 ≤ t)) = [] := by
        rw [List.filter_eq_nil_iff]
        intro p hpmem
        have h2 := hp.1 p hpmem
        simp only [decide_eq_true_eq]
        omega
      rw [List.filter_cons_of_neg (by simpa using hle), hnil]
      rfl

theorem pairwise_fst_zip : ∀ (l : List Int) (l2 : List ℚ),
    List.Pairwise (fun a b : Int => a ≤ b) l →
    List.Pairwise (fun a b : Int × ℚ => a.1 ≤ b.1) (l.zip l2) := by
  intro l
  induction l with
  | nil => intro l2 _; simp
  | cons x xs ih =>
    intro l2 h
    rw [List.pairwise_cons] at h
    cases l2 with
    | nil => simp
    | cons y ys =>
      rw [List.zip_cons_cons, List.pairwise_cons]
      refine ⟨?_, ih ys h.2⟩
      intro p hp
      obtain ⟨a, c⟩ := p
      exact h.1 a (List.of_mem_zip hp).1

theorem getD_replicate_one : ∀ (n i : Nat), i < n →
    (List.replicate n (1 : ℚ)).getD i 0 = 1 := by
  intro n
  induction n with
  | zero => intro i h; exact absurd h (Nat.not_lt_zero i)
  | succ m ih =>
    intro i h
    cases i with
    | zero => rfl
    | succ j => exact ih j (by omega)

/-- Claim C3: each mapped factor is the back-factor of the latest event
whose timestamp is at most the target timestamp (1 when none), and with
zero events the whole output is filled with 1 independently of the
back-factor array. -/
theorem timetags_back_dr_spec (timetags dr_timestamp : List Int) (back_dr : List ℚ)
    (hsort : List.Pairwise (fun a b : Int => a ≤ b) dr_timestamp) :
    (∀ i, i < timetags.length →
      (make_timetags_back_dr timetags dr_timestamp back_dr).getD i 0 =
        latest_event_factor (timetags.getD i 0) (dr_timestamp.zip back_dr)) ∧
    (∀ back2 : List ℚ,
      make_timetags_back_dr timetags [] back2 =
        List.replicate timetags.length 1) := by
  constructor
  · intro i hi
    by_cases hM : 0 < dr_timestamp.length
    · rw [show make_timetags_back_dr timetags dr_timestamp back_dr =
            get_back_dr_list timetags dr_timestamp back_dr by
          simp [make_timetags_back_dr, hM]]
      rw [get_back_dr_list, getD_map_of_lt _ (0 : Int) (0 : ℚ) timetags i hi,
        scan_dr_eq_lastFactorD _ _ _ (pairwise_fst_zip _ back_dr hsort),
        latest_event_factor_eq_lastFactorD]
    · have hempty : dr_timestamp = [] := by
        cases dr_timestamp with
        | nil => rfl
        | cons a l => simp at hM
      subst hempty
      rw [show make_timetags_back_dr timetags [] back_dr =
            List.replicate timetags.length 1 by simp [make_timetags_back_dr]]
      rw [getD_replicate_one _ i hi]
      rfl
  · intro back2
    simp [make_timetags_back_dr]

theorem timetags_back_dr_spec_witness :
    (make_timetags_back_dr [5, 15, 25] [10, 20] [2, 3]).getD 1 0 =
      latest_event_factor 15 ([10, 20].zip [2, 3]) :=
  (timetags_back_dr_spec [5, 15, 25] [10, 20] [2, 3] (by decide)).1 1 (by decide)


/-! ## The overview memoization -/

theorem cacheLookup_cons_self (c : List (AutoKey × Option Int)) (k : AutoKey)
    (v : Option Int) : cacheLookup ((k, v) :: c) k = some v := by
  simp [cacheLookup]

theorem cacheLookup_cons_ne (c : List (AutoKey × Option Int)) (k k2 : AutoKey)
    (v2 : Option Int) (h : ¬ k2 = k) :
    cacheLookup ((k2, v2) :: c) k = cacheLookup c k := by
  simp [cacheLookup, List.find?_cons_of_neg, h]

theorem auto_cache_memo_hit {α : Type} (db : Database α)
    (c : List (AutoKey × Option Int)) (k : AutoKey) (v : Option Int)
    (h : cacheLookup c k = some v) :
    auto_cache_memo db c k = (.ok v, c, false) := by
  simp [auto_cache_memo, h]

theorem auto_cache_memo_miss {α : Type} (db : Database α)
    (c : List (AutoKey × Option Int)) (k : AutoKey) (v : Option Int)
    (h1 : cacheLookup c k = none) (h2 : auto_cache db k.1 k.2.1 k.2.2 = .ok v) :
    auto_cache_memo db c k = (.ok v, (k, v) :: c, true) := by
  simp [auto_cache_memo, h1, h2]

theorem cacheLookup_preserved {α : Type} (db : Database α)
    (c : List (AutoKey × Option Int)) (k k2 : AutoKey) (v : Option Int)
    (h : cacheLookup c k = some v) :
    cacheLookup (auto_cache_memo db c k2).2.1 k = some v := by
  unfold auto_cache_memo
  cases hl : cacheLookup c k2 with
  | some w => simpa using h
  | none =>
    cases hb : auto_cache db k2.1 k2.2.1 k2.2.2 with
    | error e => simpa using h
    | ok w =>
      have hkk : ¬ k2 = k := by
        intro he
        rw [he, h] at hl
        cases hl
      rw [show ((Except.ok w, (k2, w) :: c, true) :
            Except String (Option Int) × List (AutoKey × Option Int) × Bool).2.1
          = (k2, w) :: c from rfl]
      rw [cacheLookup_cons_ne c k k2 w hkk]
      exact h

theorem auto_cache_of_overview_one {α : Type} (db : Database α)
    (s e i : PyVal) (ow : Overview)
    (h : query_overview_uni db s e i = .ok [ow]) :
    auto_cache db s e i = .ok (some (ow.stop - oneDay)) := by
  simp [auto_cache, h]

theorem auto_cache_of_overview_nil {α : Type} (db : Database α) (s e i : PyVal)
    (h : query_overview_uni db s e i = .ok []) :
    auto_cache db s e i = .ok none := by
  simp [auto_cache, h]

/-- Claim C8: on a fresh key the memoized `_auto_cache` consults the store
overview and records the result (coverage end minus one day, or the
explicit no-coverage marker `none` for zero records); a later resolution of
the same key returns the memoized value without consulting any store (even
a changed one); and no invocation ever refreshes or invalidates an existing
entry. -/
theorem overview_cache_spec {α : Type} (db : Database α)
    (c : List (AutoKey × Option Int)) (k : AutoKey)
    (hfresh : cacheLookup c k = none) :
    (∀ ow : Overview, query_overview_uni db k.1 k.2.1 k.2.2 = .ok [ow] →
      auto_cache_memo db c k =
        (.ok (some (ow.stop - oneDay)), (k, some (ow.stop - oneDay)) :: c, true) ∧
      (∀ db2 : Database α,
        auto_cache_memo db2 ((k, some (ow.stop - oneDay)) :: c) k =
          (.ok (some (ow.stop - oneDay)), (k, some (ow.stop - oneDay)) :: c, false))) ∧
    (query_overview_uni db k.1 k.2.1 k.2.2 = .ok [] →
      auto_cache_memo db c k = (.ok none, (k, none) :: c, true) ∧
      (∀ db2 : Database α,
        auto_cache_memo db2 ((k, none) :: c) k = (.ok none, (k, none) :: c, false))) ∧
    (∀ (db2 : Database α) (c2 : List (AutoKey × Option Int)) (k1 k2 : AutoKey)
        (v : Option Int), cacheLookup c2 k1 = some v →
      cacheLookup (auto_cache_memo db2 c2 k2).2.1 k1 = some v) := by
  refine ⟨?_, ?_, ?_⟩
  · intro ow how
    refine ⟨auto_cache_memo_miss db c k _ hfresh
      (auto_cache_of_overview_one db _ _ _ ow how), ?_⟩
    intro db2
    exact auto_cache_memo_hit db2 _ k _ (cacheLookup_cons_self c k _)
  · intro how
    refine ⟨auto_cache_memo_miss db c k _ hfresh
      (auto_cache_of_overview_nil db _ _ _ how), ?_⟩
    intro db2
    exact auto_cache_memo_hit db2 _ k _ (cacheLookup_cons_self c k _)
  · intro db2 c2 k1 k2 v h
    exact cacheLookup_preserved db2 c2 k1 k2 v h

theorem overview_cache_spec_witness :
    auto_cache_memo dbOv [] kOv =
      (.ok (some (2 * oneDay - oneDay)),
       (kOv, some (2 * oneDay - oneDay)) :: [], true) :=
  ((overview_cache_spec dbOv [] kOv rfl).1 ⟨10, 0, 2 * oneDay⟩ rfl).1


end Vnpy
